import Mathlib

/-!
Verification development for the U-Net image-segmentation training material
(`read_and_preprocess`, `augment`, `build_unet`, `train_evaluate`, `create_mask`).

Images are shallowly embedded as rational-valued pixel grids together with an
element dtype tag. The TensorFlow operations the code composes are embedded
from their documented semantics:
  * `tf.image.resize` (default method, bilinear with half-pixel centers)
    always returns a float32 tensor of the requested spatial size;
  * `tf.image.convert_image_dtype` is the identity when the image already has
    the requested dtype, and scales integer data into [0,1] otherwise;
  * `tf.image.flip_left_right` reverses the width axis;
  * `tf.argmax` along the last axis returns the index of a maximal entry.
-/

/-- Element dtype of a tensor: the source data is uint8, `tf.image.resize`
produces float32. -/
inductive DType where
  | uint8 : DType
  | float32 : DType
deriving DecidableEq

/-- A (height, width, channels) image with rational pixel values and a dtype
tag, embedding a dense TF tensor. -/
structure Image where
  height : ℕ
  width : ℕ
  channels : ℕ
  dtype : DType
  pix : ℕ → ℕ → ℕ → ℚ

/-- One input record of the `oxford_iiit_pet` dataset: a dict with an
`image` (H x W x 3, uint8) and a `segmentation_mask` (H x W x 1, uint8). -/
structure DataRecord where
  image : Image
  segmentation_mask : Image

/-- One-dimensional bilinear interpolation with half-pixel centers, as in the
TF2 resize kernel: output index `i` maps to input coordinate
`(i + 1/2) * (inSize / outSize) - 1/2`; the two neighbours are clamped to
`[0, inSize - 1]` and blended with weight `inF - floor inF`. -/
def interpolate1D (v : ℕ → ℚ) (inSize outSize : ℕ) (i : ℕ) : ℚ :=
  let inF : ℚ := ((i : ℚ) + 1/2) * ((inSize : ℚ) / (outSize : ℚ)) - 1/2
  let lower : ℕ := (max (Int.floor inF) 0).toNat
  let upper : ℕ := (min (Int.ceil inF) ((inSize : ℤ) - 1)).toNat
  let lerp : ℚ := inF - (Int.floor inF : ℚ)
  v lower + (v upper - v lower) * lerp

/-- Embedding of `tf.image.resize(img, (h, w))` with the default bilinear
method: interpolate along the width axis, then along the height axis.  The
result is always float32 and usually carries the source value range over
unchanged (bilinear blending of the input samples). -/
def tf_image_resize (img : Image) (h w : ℕ) : Image where
  height := h
  width := w
  channels := img.channels
  dtype := DType.float32
  pix := fun i j c =>
    interpolate1D
      (fun r => interpolate1D (fun col => img.pix r col c) img.width w j)
      img.height h i

/-- Embedding of `tf.image.convert_image_dtype(img, dst)`: when the image
already has dtype `dst` the op is the identity (it does not rescale); a
uint8 image converted to float32 is scaled by 1/255 into [0,1]; a float32
image converted to uint8 is scaled by 255 and rounded. -/
def convert_image_dtype (img : Image) (dst : DType) : Image :=
  if img.dtype = dst then img
  else
    match img.dtype, dst with
    | DType.uint8, DType.float32 =>
        { img with dtype := DType.float32, pix := fun i j c => img.pix i j c / 255 }
    | DType.float32, DType.uint8 =>
        { img with dtype := DType.uint8,
                   pix := fun i j c => (Int.floor (img.pix i j c * 255 + 1/2) : ℚ) }
    | _, _ => img

/-- Embedding of `read_and_preprocess` from the notebook: resize image and
mask to (128, 128), call `convert_image_dtype(·, tf.float32)` on the image,
and subtract 1 from the mask. -/
def read_and_preprocess (data : DataRecord) : Image × Image :=
  let input_image := tf_image_resize data.image 128 128
  let input_mask := tf_image_resize data.segmentation_mask 128 128
  let input_image := convert_image_dtype input_image DType.float32
  let input_mask := { input_mask with pix := fun i j c => input_mask.pix i j c - 1 }
  (input_image, input_mask)

/-- Embedding of `read_and_preprocess` as written into `pets_trainer/train.py`:
the same resize to (128, 128), `convert_image_dtype(·, tf.float32)`, and
`input_mask -= 1`. -/
def read_and_preprocess_trainer (data : DataRecord) : Image × Image :=
  let input_image := tf_image_resize data.image 128 128
  let input_mask := tf_image_resize data.segmentation_mask 128 128
  let input_image := convert_image_dtype input_image DType.float32
  let input_mask := { input_mask with pix := fun i j c => input_mask.pix i j c - 1 }
  (input_image, input_mask)

/-- A 1 x 1 uint8 RGB image whose single pixel has every channel at 255 (the
uint8 maximum). -/
def whiteImage : Image where
  height := 1
  width := 1
  channels := 3
  dtype := DType.uint8
  pix := fun _ _ _ => 255

/-- A 1 x 1 uint8 mask with label 1. -/
def tinyMask : Image where
  height := 1
  width := 1
  channels := 1
  dtype := DType.uint8
  pix := fun _ _ _ => 1

/-- A record whose image is all-255: an extreme but perfectly valid uint8
photograph. -/
def whiteRecord : DataRecord where
  image := whiteImage
  segmentation_mask := tinyMask

/-- A 2 x 1 uint8 mask whose two pixels carry the labels 1 (top) and 3
(bottom): adjacent pixels with different labels, as happens at every class
boundary of a real segmentation mask. -/
def boundaryMask : Image where
  height := 2
  width := 1
  channels := 1
  dtype := DType.uint8
  pix := fun i _ _ => if i = 0 then 1 else 3

/-- A 2 x 1 record carrying `boundaryMask` as its segmentation mask. -/
def boundaryRecord : DataRecord where
  image :=
    { height := 2, width := 1, channels := 3, dtype := DType.uint8,
      pix := fun _ _ _ => 7 }
  segmentation_mask := boundaryMask

/-- Embedding of `tf.image.flip_left_right`: mirror the image along the width
axis. -/
def flip_left_right (img : Image) : Image :=
  { img with pix := fun i j c => img.pix i (img.width - 1 - j) c }

/-- Probability of data augmentation, from the notebook: `AUGMENT_PROB = 0.5`. -/
def AUGMENT_PROB : ℚ := 0.5

/-- Embedding of `augment` from the notebook.  `r` is the value drawn by
`tf.random.uniform(())`, a sample of the uniform distribution on [0, 1);
when `r < AUGMENT_PROB` both image and mask are mirrored, otherwise both are
returned unchanged. -/
def augment (r : ℚ) (img mask : Image) : Image × Image :=
  if r < AUGMENT_PROB then (flip_left_right img, flip_left_right mask)
  else (img, mask)

/-- Embedding of `augment` from `pets_trainer/train.py`: same shape, but the
draw is compared with `> 0.5` instead of `< AUGMENT_PROB`. -/
def augment_trainer (r : ℚ) (img mask : Image) : Image × Image :=
  if r > 0.5 then (flip_left_right img, flip_left_right mask)
  else (img, mask)

/-- The range of `tf.random.uniform(())`: the half-open real unit interval. -/
def unitDraw : Set ℝ := Set.Ico 0 1

/-- The event, inside the uniform draw, on which the notebook `augment` flips:
draws below `AUGMENT_PROB`. -/
def flipEvent : Set ℝ := {r ∈ unitDraw | r < (AUGMENT_PROB : ℝ)}

/-- The event on which the `train.py` `augment` flips: draws above 0.5. -/
def flipEventTrainer : Set ℝ := {r ∈ unitDraw | (1/2 : ℝ) < r}

/-- Shape of a (height, width, channels) activation tensor, used to trace
`build_unet` at the shape level. -/
structure Shape where
  h : ℕ
  w : ℕ
  c : ℕ
deriving DecidableEq

/-- Shape semantics of `tf.keras.layers.Conv2DTranspose(filters, k, strides,
padding="same")`: spatial dimensions are multiplied by the stride and the
channel count becomes `filters`. -/
def conv2DTranspose_shape (filters strides : ℕ) (s : Shape) : Shape :=
  { h := s.h * strides, w := s.w * strides, c := filters }

/-- Shape semantics of `tf.keras.layers.BatchNormalization()`: identity. -/
def batchNormalization_shape (s : Shape) : Shape := s

/-- Shape semantics of `tf.keras.layers.ReLU()`: identity. -/
def reLU_shape (s : Shape) : Shape := s

/-- Shape semantics of `upsample(filters, size, name)` from `train.py`: a
`Sequential` of Conv2DTranspose (strides=2, padding="same"), then
BatchNormalization, then ReLU. -/
def upsample_shape (filters : ℕ) (s : Shape) : Shape :=
  reLU_shape (batchNormalization_shape (conv2DTranspose_shape filters 2 s))

/-- The filter counts of the four `upsample` blocks of `up_stack`, in order:
512, 256, 128, 64. -/
def up_stack_filters : List ℕ := [512, 256, 128, 64]

/-- Shape semantics of `tf.keras.layers.Concatenate()` on two inputs: defined
only when the spatial dimensions agree, in which case the channel counts
add. -/
def concatenate_shape (a b : Shape) : Option Shape :=
  if a.h = b.h ∧ a.w = b.w then some { h := a.h, w := a.w, c := a.c + b.c }
  else none

/-- The encoder layer names listed in the notebook and in `train.py`. -/
def layer_names : List String :=
  ["block_1_expand_relu", "block_3_expand_relu", "block_6_expand_relu",
   "block_13_expand_relu", "block_16_project"]

/-- Output stride of a named MobileNetV2 layer relative to the network input,
modelled from the documented MobileNetV2 architecture (the library network
the code truncates): the expand-relu of blocks 1, 3, 6, 13 sit after 1, 2,
3, 4 stride-2 stages and `block_16_project` after 5. -/
def mobilenetv2_stride (name : String) : ℕ :=
  if name = "block_1_expand_relu" then 2
  else if name = "block_3_expand_relu" then 4
  else if name = "block_6_expand_relu" then 8
  else if name = "block_13_expand_relu" then 16
  else if name = "block_16_project" then 32
  else 1

/-- Channel count of a named MobileNetV2 layer, modelled from the documented
MobileNetV2 architecture. -/
def mobilenetv2_channels (name : String) : ℕ :=
  if name = "block_1_expand_relu" then 96
  else if name = "block_3_expand_relu" then 144
  else if name = "block_6_expand_relu" then 192
  else if name = "block_13_expand_relu" then 576
  else if name = "block_16_project" then 320
  else 0

/-- Shape semantics of `down_stack`, the `tf.keras.Model` whose outputs are
the activations of the layers in `layer_names`: for a square input of side
`n`, output `i` has side `n / stride` and the channel count of that layer. -/
def down_stack_shapes (input : Shape) : List Shape :=
  layer_names.map fun name =>
    { h := input.h / mobilenetv2_stride name,
      w := input.w / mobilenetv2_stride name,
      c := mobilenetv2_channels name }

/-- Input shape constant from the notebook: `INPUT_SHAPE = [128, 128, 3]`. -/
def INPUT_SHAPE : Shape := { h := 128, w := 128, c := 3 }

/-- Output channel constant from the notebook: `OUTPUT_CHANNELS = 3`. -/
def OUTPUT_CHANNELS : ℕ := 3

/-- Shape trace of `build_unet(input_shape, output_channels)` from `train.py`:
run the encoder, take the last skip as `x`, reverse the remaining skips,
fold the four upsample blocks with concatenation, and finish with the last
`Conv2DTranspose(output_channels, 3, strides=2, padding="same")`. -/
def build_unet_shape (input_shape : Shape) (output_channels : ℕ) : Option Shape := do
  let skips := down_stack_shapes input_shape
  let x0 ← skips.getLast?
  let revSkips := (skips.dropLast).reverse
  let xs ← (up_stack_filters.zip revSkips).foldlM
    (fun x p => concatenate_shape (upsample_shape p.1 x) p.2) x0
  pure (conv2DTranspose_shape output_channels 2 xs)

/-- A Keras layer reduced to what C4 needs: a weight vector and its
`trainable` flag. -/
structure KLayer where
  weights : List ℚ
  trainable : Bool
deriving DecidableEq

/-- The composed U-Net of `build_unet`, reduced to its two weight-holding
parts: the frozen `down_stack` encoder and the decoder layers (`up_stack`
and the final transposed convolution). -/
structure UNetModel where
  encoder : KLayer
  decoder : List KLayer
deriving DecidableEq

/-- Weight-level embedding of `build_unet`: the encoder is the pretrained
MobileNetV2 feature extractor with `down_stack.trainable = False`; the
decoder layers are freshly constructed and keep the Keras default
`trainable = True`. -/
def build_unet_model (pretrained : List ℚ) (decoderInit : List (List ℚ)) : UNetModel :=
  { encoder := { weights := pretrained, trainable := false },
    decoder := decoderInit.map fun ws => { weights := ws, trainable := true } }

/-- One optimizer step of `model.fit`, modelled from the documented Keras
contract for `trainable`: the update function is applied to the weights of
every trainable layer, and layers with `trainable = False` are excluded
from training and left untouched. -/
def fitStep (update : List ℚ → List ℚ) (m : UNetModel) : UNetModel :=
  { encoder :=
      if m.encoder.trainable then { m.encoder with weights := update m.encoder.weights }
      else m.encoder,
    decoder := m.decoder.map fun l =>
      if l.trainable then { l with weights := update l.weights } else l }

/-- A whole `model.fit` run: one optimizer step per element of `updates`. -/
def fit (updates : List (List ℚ → List ℚ)) (m : UNetModel) : UNetModel :=
  updates.foldl (fun acc u => fitStep u acc) m

/-- Helper: rewrite `Int.ceil` through `Int.floor` so that `norm_num` (which
evaluates floors of rational literals) can compute ceilings too. -/
theorem ceil_eq_neg_floor_neg (x : ℚ) : Int.ceil x = -Int.floor (-x) := by
  rw [Int.floor_neg, neg_neg]

/-- Observable step of `train_evaluate`, in execution order. -/
inductive TrainEffect where
  | loadDataset (name dataDir : String) : TrainEffect
  | buildModel (inputShape : Shape) (outputChannels : ℕ) : TrainEffect
  | compileModel : TrainEffect
  | fitModel (epochs : ℕ) : TrainEffect
  | saveModel (dir : String) : TrainEffect
deriving DecidableEq

/-- Python truthiness of the `output_dir` argument: `None` and the empty
string are falsy, every other string is truthy. -/
def pythonTruthy : Option String → Bool
  | none => false
  | some s => !(s = "")

/-- Effect trace of `train_evaluate` from `train.py`: load the dataset, build
the U-Net, compile it, fit it, and finally - only under `if output_dir:` -
save the model to `output_dir`. -/
def train_evaluate (tf_dataset data_dir : String) (input_shape : Shape)
    (output_channels epochs : ℕ) (output_dir : Option String) : List TrainEffect :=
  [TrainEffect.loadDataset tf_dataset data_dir,
   TrainEffect.buildModel input_shape output_channels,
   TrainEffect.compileModel,
   TrainEffect.fitModel epochs] ++
  (if pythonTruthy output_dir then
     [TrainEffect.saveModel (output_dir.getD "")]
   else [])

/-- A dense rank-4 prediction tensor `[batch, height, width, channels]` as
returned by `model.predict`. -/
structure Tensor4 where
  batch : ℕ
  height : ℕ
  width : ℕ
  channels : ℕ
  val : ℕ → ℕ → ℕ → ℕ → ℚ

/-- An integer-valued rank-3 tensor `[height, width, channels]`, the result
type of `create_mask` (an int64 tensor of argmax indices). -/
structure IndexTensor3 where
  height : ℕ
  width : ℕ
  channels : ℕ
  val : ℕ → ℕ → ℕ → ℕ

/-- Embedding of `tf.argmax(-, axis=-1)` on one channel vector: the index of
a maximal entry among `f 0, ..., f (n-1)` (the first maximum). -/
def argmaxChannel (f : ℕ → ℚ) (n : ℕ) : ℕ :=
  (List.range n).foldl (fun best j => if f best < f j then j else best) 0

/-- Embedding of `create_mask`: `tf.argmax(pred_mask, axis=-1)` collapses the
channel axis, `[..., tf.newaxis]` restores a singleton channel axis, and
`pred_mask[0]` selects the first batch element. -/
def create_mask (pred_mask : Tensor4) : IndexTensor3 where
  height := pred_mask.height
  width := pred_mask.width
  channels := 1
  val := fun i j _ => argmaxChannel (fun ch => pred_mask.val 0 i j ch) pred_mask.channels

/-- A concrete 2-batch prediction tensor: batch element 0 peaks at channel 1,
batch element 1 is constant 9 (and must not influence `create_mask`). -/
def demoPred : Tensor4 where
  batch := 2
  height := 1
  width := 1
  channels := 3
  val := fun b _ _ ch => if b = 0 then (if ch = 1 then 5 else 0) else 9

/-- Helper: a fold of the argmax step stays below `n` when the seed and all
candidates do. -/
theorem argmax_foldl_lt (f : ℕ → ℚ) :
    ∀ (l : List ℕ) (b n : ℕ), b < n → (∀ j ∈ l, j < n) →
      l.foldl (fun best j => if f best < f j then j else best) b < n := by
  intro l
  induction l with
  | nil => intro b n hb _; exact hb
  | cons a t ih =>
      intro b n hb hl
      have ha : a < n := hl a (by simp)
      have hstep : (if f b < f a then a else b) < n := by split <;> assumption
      exact ih _ n hstep (fun j hj => hl j (by simp [hj]))

/-- Helper: the argmax fold never decreases the tracked value. -/
theorem argmax_foldl_ge_init (f : ℕ → ℚ) :
    ∀ (l : List ℕ) (b : ℕ),
      f b ≤ f (l.foldl (fun best j => if f best < f j then j else best) b) := by
  intro l
  induction l with
  | nil => intro b; exact le_refl _
  | cons a t ih =>
      intro b
      have h1 : f b ≤ f (if f b < f a then a else b) := by
        split
        · exact le_of_lt (by assumption)
        · exact le_refl _
      exact le_trans h1 (ih _)

/-- Helper: the argmax fold dominates every scanned candidate. -/
theorem argmax_foldl_ge_mem (f : ℕ → ℚ) :
    ∀ (l : List ℕ) (b j : ℕ), j ∈ l →
      f j ≤ f (l.foldl (fun best j => if f best < f j then j else best) b) := by
  intro l
  induction l with
  | nil => intro b j hj; cases hj
  | cons a t ih =>
      intro b j hj
      rcases List.mem_cons.mp hj with h | h
      · subst h
        have h1 : f j ≤ f (if f b < f j then j else b) := by
          split
          · exact le_refl _
          · exact le_of_not_lt (by assumption)
        exact le_trans h1 (argmax_foldl_ge_init f t _)
      · exact ih _ j h

/-- Helper: `argmaxChannel f n` is a valid channel index when `n` is
positive. -/
theorem argmaxChannel_lt (f : ℕ → ℚ) (n : ℕ) (h : 0 < n) : argmaxChannel f n < n :=
  argmax_foldl_lt f (List.range n) 0 n h (fun j hj => List.mem_range.mp hj)

/-- Helper: `argmaxChannel f n` attains the maximum of `f` on `[0, n)`. -/
theorem argmaxChannel_is_max (f : ℕ → ℚ) (n j : ℕ) (hj : j < n) :
    f j ≤ f (argmaxChannel f n) :=
  argmax_foldl_ge_mem f (List.range n) 0 j (List.mem_range.mpr hj)

/-- Helper: `fit` never touches a frozen encoder. -/
theorem fit_keeps_frozen_encoder :
    ∀ (updates : List (List ℚ → List ℚ)) (m : UNetModel),
      m.encoder.trainable = false → (fit updates m).encoder = m.encoder := by
  intro updates
  induction updates with
  | nil => intro m _; rfl
  | cons u us ih =>
      intro m h
      have hstep : (fitStep u m).encoder = m.encoder := by
        simp [fitStep, h]
      have htail : (fit us (fitStep u m)).encoder = (fitStep u m).encoder :=
        ih _ (by rw [hstep]; exact h)
      calc (fit (u :: us) m).encoder
          = (fit us (fitStep u m)).encoder := rfl
        _ = (fitStep u m).encoder := htail
        _ = m.encoder := hstep

/-- Claim C1: the claim says every channel value of the preprocessed image
lies in [0,1].  It does not: `tf.image.resize` already returns float32, so
the subsequent `convert_image_dtype(-, tf.float32)` is the identity and the
values keep the uint8 range.  On the all-255 record the preprocessed image
has channel value 255, far outside [0,1]. -/
theorem C1_image_value_escapes_unit_interval :
    (read_and_preprocess whiteRecord).1.pix 0 0 0 = 255 ∧
    ¬ (read_and_preprocess whiteRecord).1.pix 0 0 0 ≤ 1 := by
  have h : (read_and_preprocess whiteRecord).1.pix 0 0 0 = 255 := by
    norm_num [read_and_preprocess, tf_image_resize, convert_image_dtype,
      interpolate1D, whiteRecord, whiteImage, ceil_eq_neg_floor_neg]
  refine ⟨h, ?_⟩
  rw [h]
  norm_num

/-- Claim C2: the claim says the preprocessed mask holds only integers from
{0,1,2}.  It does not: the default bilinear `tf.image.resize` interpolates
across label boundaries.  On a 2 x 1 mask with labels 1 and 3 the resized,
shifted mask holds the value 1/64 at output pixel (32, 0), which is not an
integer, let alone one of 0, 1, 2. -/
theorem C2_mask_value_not_integral :
    (read_and_preprocess boundaryRecord).2.pix 32 0 0 = 1/64 ∧
    (read_and_preprocess boundaryRecord).2.pix 32 0 0 ≠ 0 ∧
    (read_and_preprocess boundaryRecord).2.pix 32 0 0 ≠ 1 ∧
    (read_and_preprocess boundaryRecord).2.pix 32 0 0 ≠ 2 ∧
    ¬ ∃ z : ℤ, (read_and_preprocess boundaryRecord).2.pix 32 0 0 = (z : ℚ) := by
  have hfr : Int.fract ((1:ℚ)/128) = 1/128 := Int.fract_eq_self.mpr (by norm_num)
  have h : (read_and_preprocess boundaryRecord).2.pix 32 0 0 = 1/64 := by
    norm_num [read_and_preprocess, tf_image_resize, interpolate1D,
      boundaryRecord, boundaryMask, ceil_eq_neg_floor_neg, hfr]
  refine ⟨h, by rw [h]; norm_num, by rw [h]; norm_num, by rw [h]; norm_num, ?_⟩
  rintro ⟨z, hz⟩
  rw [h] at hz
  have h0 : (0:ℚ) < (z:ℚ) := by rw [← hz]; norm_num
  have h1 : (z:ℚ) < 1 := by rw [← hz]; norm_num
  have h0i : (0:ℤ) < z := by exact_mod_cast h0
  have h1i : z < 1 := by exact_mod_cast h1
  omega

/-- Claim C8: for every input record, the image and mask returned by
`read_and_preprocess` are both 128 x 128, hence share their spatial
dimensions. -/
theorem C8_image_mask_shared_spatial_dims (data : DataRecord) :
    (read_and_preprocess data).1.height = 128 ∧
    (read_and_preprocess data).1.width = 128 ∧
    (read_and_preprocess data).2.height = 128 ∧
    (read_and_preprocess data).2.width = 128 ∧
    (read_and_preprocess data).1.height = (read_and_preprocess data).2.height ∧
    (read_and_preprocess data).1.width = (read_and_preprocess data).2.width :=
  ⟨rfl, rfl, rfl, rfl, rfl, rfl⟩

/-- Claim C9: the notebook `read_and_preprocess` and the one written into
`pets_trainer/train.py` compute the same function on every record. -/
theorem C9_preprocess_refinement (data : DataRecord) :
    read_and_preprocess data = read_and_preprocess_trainer data := rfl

/-- Claim C3: for every outcome of the random draw, `augment` either mirrors
image and mask together or returns both unchanged - never one without the
other; the notebook flips exactly on draws below `AUGMENT_PROB = 0.5`, an
event of probability 1/2 under the uniform draw on [0,1); the `train.py`
variant also flips both-or-neither, on an event of probability 1/2. -/
theorem C3_augment_flips_image_and_mask_together :
    (∀ r img mask, augment r img mask = (flip_left_right img, flip_left_right mask) ∨
        augment r img mask = (img, mask)) ∧
    (∀ r img mask, r < AUGMENT_PROB →
        augment r img mask = (flip_left_right img, flip_left_right mask)) ∧
    (∀ r img mask, AUGMENT_PROB ≤ r → augment r img mask = (img, mask)) ∧
    AUGMENT_PROB = 1/2 ∧
    MeasureTheory.volume flipEvent = ENNReal.ofReal (AUGMENT_PROB : ℝ) ∧
    (∀ r img mask,
        augment_trainer r img mask = (flip_left_right img, flip_left_right mask) ∨
        augment_trainer r img mask = (img, mask)) ∧
    MeasureTheory.volume flipEventTrainer = ENNReal.ofReal (1/2) := by
  have hA : (AUGMENT_PROB : ℝ) = 1/2 := by norm_num [AUGMENT_PROB]
  refine ⟨?_, ?_, ?_, by norm_num [AUGMENT_PROB], ?_, ?_, ?_⟩
  · intro r img mask
    by_cases h : r < AUGMENT_PROB
    · left; simp [augment, h]
    · right; simp [augment, h]
  · intro r img mask h; simp [augment, h]
  · intro r img mask h; simp [augment, not_lt.mpr h]
  · have hset : flipEvent = Set.Ico (0:ℝ) (1/2) := by
      ext x
      simp only [flipEvent, unitDraw, Set.mem_sep_iff, Set.mem_Ico, hA]
      constructor
      · rintro ⟨⟨h0, _⟩, h2⟩; exact ⟨h0, h2⟩
      · rintro ⟨h0, h2⟩; exact ⟨⟨h0, by linarith⟩, h2⟩
    rw [hset, Real.volume_Ico, hA]
    norm_num
  · intro r img mask
    by_cases h : r > 0.5
    · left; simp [augment_trainer, h]
    · right; simp [augment_trainer, h]
  · have hset : flipEventTrainer = Set.Ioo (1/2 : ℝ) 1 := by
      ext x
      simp only [flipEventTrainer, unitDraw, Set.mem_sep_iff, Set.mem_Ico, Set.mem_Ioo]
      constructor
      · rintro ⟨⟨_, h1⟩, h2⟩; exact ⟨h2, h1⟩
      · rintro ⟨h2, h1⟩; exact ⟨⟨by linarith, h1⟩, h2⟩
    rw [hset, Real.volume_Ioo]
    norm_num

/-- Witness for C3: at the concrete draw 1/4 both image and mask are
mirrored, and at the draw 3/4 both are left unchanged. -/
theorem C3_augment_flips_image_and_mask_together_witness :
    augment (1/4) whiteImage tinyMask
      = (flip_left_right whiteImage, flip_left_right tinyMask) ∧
    augment (3/4) whiteImage tinyMask = (whiteImage, tinyMask) :=
  ⟨C3_augment_flips_image_and_mask_together.2.1 (1/4) whiteImage tinyMask
      (by norm_num [AUGMENT_PROB]),
   C3_augment_flips_image_and_mask_together.2.2.1 (3/4) whiteImage tinyMask
      (by norm_num [AUGMENT_PROB])⟩

/-- Claim C4: `build_unet` constructs the encoder with `trainable = False`,
so every run of `fit` - whatever gradient updates the optimizer produces -
leaves the pretrained encoder weights exactly as they were, while decoder
weights can change. -/
theorem C4_encoder_weights_frozen_under_fit :
    (∀ pw dec, (build_unet_model pw dec).encoder.trainable = false) ∧
    (∀ pw dec (updates : List (List ℚ → List ℚ)),
        (fit updates (build_unet_model pw dec)).encoder.weights = pw) ∧
    (∃ (pw : List ℚ) (dec : List (List ℚ)) (updates : List (List ℚ → List ℚ)),
        (fit updates (build_unet_model pw dec)).decoder
          ≠ (build_unet_model pw dec).decoder) := by
  refine ⟨fun pw dec => rfl, ?_, ?_⟩
  · intro pw dec updates
    have h := fit_keeps_frozen_encoder updates (build_unet_model pw dec) rfl
    rw [h]
    rfl
  · exact ⟨[0], [[0]], [fun _ => [1]], by decide⟩

/-- Claim C5: the decoder is exactly four upsample blocks (Conv2DTranspose
with stride 2 and padding "same", then BatchNormalization, then ReLU), each
doubling the spatial resolution; the skips are concatenated in reverse
encoder order at resolutions 8, 16, 32, 64; and the final Conv2DTranspose
projects to `OUTPUT_CHANNELS = 3`, so a [128,128,3] input yields a
[128,128,3] logit tensor. -/
theorem C5_decoder_four_blocks_output_128 :
    up_stack_filters.length = 4 ∧
    up_stack_filters = [512, 256, 128, 64] ∧
    (∀ f s, upsample_shape f s = { h := s.h * 2, w := s.w * 2, c := f }) ∧
    ((down_stack_shapes INPUT_SHAPE).dropLast.reverse.map Shape.h = [8, 16, 32, 64]) ∧
    ((down_stack_shapes INPUT_SHAPE).dropLast.reverse.map Shape.w = [8, 16, 32, 64]) ∧
    OUTPUT_CHANNELS = 3 ∧
    (∀ s, (conv2DTranspose_shape OUTPUT_CHANNELS 2 s).c = OUTPUT_CHANNELS) ∧
    build_unet_shape INPUT_SHAPE OUTPUT_CHANNELS = some { h := 128, w := 128, c := 3 } :=
  ⟨rfl, rfl, fun f s => rfl, by decide, by decide, rfl, fun s => rfl, by decide⟩

/-- Claim C6: for the 128 x 128 input the encoder exposes exactly the five
named MobileNetV2 activations, with strictly decreasing spatial resolutions
64, 32, 16, 8, 4. -/
theorem C6_encoder_five_skips_decreasing :
    layer_names = ["block_1_expand_relu", "block_3_expand_relu",
      "block_6_expand_relu", "block_13_expand_relu", "block_16_project"] ∧
    layer_names.length = 5 ∧
    (down_stack_shapes INPUT_SHAPE).length = 5 ∧
    (down_stack_shapes INPUT_SHAPE).map Shape.h = [64, 32, 16, 8, 4] ∧
    (down_stack_shapes INPUT_SHAPE).map Shape.w = [64, 32, 16, 8, 4] ∧
    List.Chain' (fun a b => b < a) ((down_stack_shapes INPUT_SHAPE).map Shape.h) := by
  have hmap : (down_stack_shapes INPUT_SHAPE).map Shape.h = [64, 32, 16, 8, 4] := by
    decide
  refine ⟨rfl, rfl, by decide, hmap, by decide, ?_⟩
  rw [hmap]
  norm_num [List.chain'_cons]

/-- Claim C7: when a (nonempty, hence truthy) `output_dir` is given,
`train_evaluate` ends by saving the model to that directory, after the fit
step has completed. -/
theorem C7_model_saved_after_fit (ds dd : String) (ish : Shape) (oc ep : ℕ)
    (dir : String) (h : dir ≠ "") :
    (train_evaluate ds dd ish oc ep (some dir)).getLast?
      = some (TrainEffect.saveModel dir) ∧
    TrainEffect.fitModel ep ∈ train_evaluate ds dd ish oc ep (some dir) ∧
    ∃ pre, train_evaluate ds dd ish oc ep (some dir)
      = pre ++ [TrainEffect.fitModel ep, TrainEffect.saveModel dir] := by
  have hte : train_evaluate ds dd ish oc ep (some dir)
      = [TrainEffect.loadDataset ds dd, TrainEffect.buildModel ish oc,
         TrainEffect.compileModel, TrainEffect.fitModel ep,
         TrainEffect.saveModel dir] := by
    simp [train_evaluate, pythonTruthy, h]
  refine ⟨by rw [hte]; rfl, by rw [hte]; simp, ?_⟩
  exact ⟨[TrainEffect.loadDataset ds dd, TrainEffect.buildModel ish oc,
          TrainEffect.compileModel], by rw [hte]; rfl⟩

/-- Witness for C7: a concrete invocation with a bucket path ends with the
save effect on that path. -/
theorem C7_model_saved_after_fit_witness :
    (train_evaluate "oxford_iiit_pet" "gs://asl-public/data/tensorflow_datasets"
        INPUT_SHAPE 3 10 (some "gs://bucket/pets/models/1")).getLast?
      = some (TrainEffect.saveModel "gs://bucket/pets/models/1") :=
  (C7_model_saved_after_fit "oxford_iiit_pet"
      "gs://asl-public/data/tensorflow_datasets" INPUT_SHAPE 3 10
      "gs://bucket/pets/models/1" (by decide)).1

/-- Claim C10: `create_mask` keeps the spatial dimensions, returns a single
channel, produces only valid channel indices (values below C), realizes the
per-pixel argmax of batch element 0, and is entirely independent of batch
elements 1..N-1. -/
theorem C10_create_mask_first_batch_argmax (p : Tensor4) :
    (create_mask p).height = p.height ∧
    (create_mask p).width = p.width ∧
    (create_mask p).channels = 1 ∧
    (0 < p.channels → ∀ i j k, (create_mask p).val i j k < p.channels) ∧
    (∀ i j k ch, ch < p.channels →
        p.val 0 i j ch ≤ p.val 0 i j ((create_mask p).val i j k)) ∧
    (∀ q : Tensor4, q.height = p.height → q.width = p.width →
        q.channels = p.channels → (∀ i j ch, q.val 0 i j ch = p.val 0 i j ch) →
        create_mask q = create_mask p) := by
  refine ⟨rfl, rfl, rfl, ?_, ?_, ?_⟩
  · intro h i j k
    exact argmaxChannel_lt _ _ h
  · intro i j k ch hch
    exact argmaxChannel_is_max _ _ ch hch
  · intro q hH hW hC hv
    simp only [create_mask, IndexTensor3.mk.injEq]
    refine ⟨hH, hW, trivial, ?_⟩
    funext i j k
    rw [hC]
    congr 1
    funext ch
    exact hv i j ch

/-- Witness for C10: on a concrete 2-batch tensor whose first batch element
peaks at channel 1, the mask value is a valid index and dominates channel
0 score. -/
theorem C10_create_mask_first_batch_argmax_witness :
    (create_mask demoPred).val 0 0 0 < demoPred.channels ∧
    demoPred.val 0 0 0 0 ≤ demoPred.val 0 0 0 ((create_mask demoPred).val 0 0 0) :=
  ⟨(C10_create_mask_first_batch_argmax demoPred).2.2.2.1 (by decide) 0 0 0,
   (C10_create_mask_first_batch_argmax demoPred).2.2.2.2.1 0 0 0 0 (by decide)⟩
